import Mathlib

/-!
# Verification of the filo-clipboard history engine

Shallow embedding of `src/lib.rs`: the snapshot classifier `compare_data`,
the engine state (`cb_history`, `last_internal_update`, `skip_clipboard`)
and the two event handlers of the `run` message loop (clipboard-changed
and hotkey), plus the key-release recovery loop of the hotkey handler.

Conventions of the embedding:
* a `ClipboardItem` is a format id (`Nat`, standing for the Windows `UINT`)
  together with its content bytes (`List Nat`);
* a snapshot (`Vec<ClipboardItem>` in the code) is a `List ClipboardItem`;
* the history `VecDeque` is a `List` with the front at the head;
* an OS interaction whose outcome is decided outside the engine (clipboard
  acquisition, key synthesis success) is an explicit parameter of the step;
* the reachable `unwrap` failure of the clipboard handler is modelled by
  the step returning `none`.
-/

/-- One clipboard representation: `ClipboardItem { format, content }` from
`clipboard_extras`. Rust `PartialEq` compares both fields. -/
structure ClipboardItem where
  format : Nat
  content : List Nat
deriving DecidableEq, Repr

/-- A captured snapshot: the `Vec<ClipboardItem>` collected from `EnumFormats`. -/
abbrev Snapshot := List ClipboardItem

/-- `enum ComparisonResult { Same, Similar, Different }` from `lib.rs`. -/
inductive ComparisonResult where
  | Same
  | Similar
  | Different
deriving DecidableEq, Repr

/-- `const MAX_RETRIES: u8 = 10` from `lib.rs`. -/
def MAX_RETRIES : Nat := 10

/-- `const SIMILARITY_THRESHOLD: u8 = 230` from `lib.rs`. -/
def SIMILARITY_THRESHOLD : Nat := 230

/-- The filter closure inside `compare_data`: an item `x` of `cb_data`
counts when the first item of `prev_cb_data` with the same format
(Rust `Iterator::find`) is fully equal to it (`**x == *y`). -/
def item_matches (prev_cb_data : Snapshot) (x : ClipboardItem) : Bool :=
  match prev_cb_data.find? fun y => x.format = y.format with
  | some y => x = y
  | none => false

/-- `fn compare_data(cb_data, prev_cb_data, threshold)` from `lib.rs`.
`count_eq` counts the items of `cb_data` accepted by the filter closure
(`item_matches`); `max_eq` is the larger of the two lengths; the `usize`
arithmetic cannot overflow for realistic clipboards and is modelled on
`Nat`. -/
def compare_data (cb_data prev_cb_data : Snapshot) (threshold : Nat) :
    ComparisonResult :=
  if cb_data.length = 0 ∧ prev_cb_data.length = 0 then ComparisonResult.Same
  else if cb_data.length = 0 ∨ prev_cb_data.length = 0 then
    ComparisonResult.Different
  else
    let count_eq := (cb_data.filter (item_matches prev_cb_data)).length
    let max_eq := max cb_data.length prev_cb_data.length
    if count_eq = max_eq then ComparisonResult.Same
    else if count_eq * 255 ≥ max_eq * threshold then ComparisonResult.Similar
    else ComparisonResult.Different

/-- The mutable state of the `run` event loop: `cb_history` (front at the
head), `last_internal_update` and `skip_clipboard`. -/
structure EngineState where
  cb_history : List Snapshot
  last_internal_update : Option Snapshot
  skip_clipboard : Bool
deriving DecidableEq, Repr

/-- The state at the top of the event loop: empty history, no pending
self-write, no suppression. -/
def initState : EngineState :=
  { cb_history := [], last_internal_update := none, skip_clipboard := false }

/-- `prev_item_similarity` from the `WM_CLIPBOARDUPDATE` arm: the verdict
of the new capture against `last_internal_update`, `Different` when there
is no pending self-write. -/
def prev_item_similarity (s : EngineState) (cb_data : Snapshot) :
    ComparisonResult :=
  (s.last_internal_update.map fun last_update =>
    compare_data cb_data last_update SIMILARITY_THRESHOLD).getD
    ComparisonResult.Different

/-- `current_item_similarity` from the `WM_CLIPBOARDUPDATE` arm: the
verdict of the new capture against the history front, `Different` when the
history is empty. -/
def current_item_similarity (s : EngineState) (cb_data : Snapshot) :
    ComparisonResult :=
  (s.cb_history.head?.map fun last_update =>
    compare_data cb_data last_update SIMILARITY_THRESHOLD).getD
    ComparisonResult.Different

/-- The `WM_CLIPBOARDUPDATE` arm of the loop. `capture` is the outcome of
`Clipboard::new_attempts(10)` followed by the `EnumFormats` collection:
`none` when the clipboard could not be acquired, `some cb_data` otherwise
(an item is collected only when its read returned `bytes != 0`, so an
empty capture is possible). The decision `match` mirrors the Rust match on
`(prev_item_similarity, current_item_similarity)` with its or-patterns in
source order. Returns `none` exactly when the handler panics: the
`cb_history.front_mut().unwrap()` of the Similar arm with an empty
history. -/
def clipboardStep (max_history : Nat) (capture : Option Snapshot)
    (s : EngineState) : Option EngineState :=
  match capture with
  | none => some s
  | some cb_data =>
    if cb_data.isEmpty then some s
    else if s.skip_clipboard then
      some { s with skip_clipboard := false }
    else
      match prev_item_similarity s cb_data, current_item_similarity s cb_data with
      | _, ComparisonResult.Same | ComparisonResult.Same, _ => some s
      | _, ComparisonResult.Similar | ComparisonResult.Similar, _ =>
        match s.cb_history with
        | [] => none
        | _ :: rest =>
          some { s with
                  cb_history := cb_data :: rest
                  last_internal_update := none }
      | ComparisonResult.Different, ComparisonResult.Different =>
        some { s with
                cb_history := (cb_data :: s.cb_history).take max_history
                last_internal_update := none }

/-- The `WM_HOTKEY` arm (wParam = 1) of the loop. `synth_ok` is the outcome
of the six-event `trigger_keys` call. On success the front entry is popped
into `last_internal_update`; when a new front remains, suppression is armed
and that front is written back to the clipboard (returned as the second
component; the write itself is best-effort and does not touch the engine
state). On failure the recovery loop (modelled separately as
`recoveryLoop`) leaves the engine state untouched. -/
def hotkeyStep (synth_ok : Bool) (s : EngineState) :
    EngineState × Option Snapshot :=
  if synth_ok then
    let pending := s.cb_history.head?
    let rest := s.cb_history.tail
    match rest.head? with
    | some prev_item =>
      ({ cb_history := rest
         last_internal_update := pending
         skip_clipboard := true }, some prev_item)
    | none =>
      ({ cb_history := rest
         last_internal_update := pending
         skip_clipboard := s.skip_clipboard }, none)
  else (s, none)

/-- One event delivered by `GetMessageA`: a clipboard-changed notification
with its capture outcome, or a hotkey press with the key-synthesis outcome.
Other messages fall through to `DefWindowProcA` and do not touch the
state. -/
inductive Event where
  | clip (capture : Option Snapshot)
  | hotkey (synth_ok : Bool)
deriving DecidableEq, Repr

/-- One iteration of the message loop. -/
def step (max_history : Nat) (s : EngineState) : Event → Option EngineState
  | Event.clip capture => clipboardStep max_history capture s
  | Event.hotkey synth_ok => some (hotkeyStep synth_ok s).1

/-- Run the message loop over a list of events; `none` once a handler
panics. -/
def runEvents (max_history : Nat) (s : EngineState) :
    List Event → Option EngineState
  | [] => some s
  | e :: es =>
    match step max_history s e with
    | some s' => runEvents max_history s' es
    | none => none

/-! ## The key-release recovery loop of the hotkey handler -/

/-- Virtual-key code `VK_SHIFT`. -/
def VK_SHIFT : Nat := 0x10

/-- Virtual-key code `VK_CONTROL`. -/
def VK_CONTROL : Nat := 0x11

/-- The paste letter key, `'V' as u16`. -/
def KEY_V : Nat := 0x56

/-- Flag `KEYEVENTF_KEYUP`. -/
def KEYEVENTF_KEYUP : Nat := 2

/-- One call to `trigger_keys`: the key codes and the per-key event
flags. -/
structure InjectionCall where
  keys : List Nat
  flags : List Nat
deriving DecidableEq, Repr

/-- The force-release call of the recovery loop: key-up for Shift, Ctrl
and the paste key. -/
def releaseCall : InjectionCall :=
  { keys := [VK_SHIFT, VK_CONTROL, KEY_V]
    flags := [KEYEVENTF_KEYUP, KEYEVENTF_KEYUP, KEYEVENTF_KEYUP] }

/-- An observable action of the recovery loop: an injection attempt or a
`sleep(ms)` backoff. -/
inductive RecoveryEvent where
  | inject (call : InjectionCall)
  | sleep (ms : Nat)
deriving DecidableEq, Repr

/-- How the recovery loop ends: the keys were released, or the engine
panics reporting the retry budget (`panic!("Could not release keys after
{} attemps...", MAX_RETRIES, ...)`). -/
inductive RecoveryOutcome where
  | released
  | fatal (attempts : Nat)
deriving DecidableEq, Repr

/-- The `Err` arm of the hotkey handler: retry the three force-release
key-up events until `trigger_keys` succeeds, panicking once `retries`
reaches `MAX_RETRIES`, sleeping 25 ms between attempts. `res i` is the
success of the i-th `trigger_keys` call; the returned trace lists the
actions performed. -/
def recoveryLoop (res : Nat → Bool) (idx retries : Nat) :
    RecoveryOutcome × List RecoveryEvent :=
  if res idx then
    (RecoveryOutcome.released, [RecoveryEvent.inject releaseCall])
  else if h : retries ≥ MAX_RETRIES then
    (RecoveryOutcome.fatal MAX_RETRIES, [RecoveryEvent.inject releaseCall])
  else
    let r := recoveryLoop res (idx + 1) (retries + 1)
    (r.1, RecoveryEvent.inject releaseCall :: RecoveryEvent.sleep 25 :: r.2)
termination_by MAX_RETRIES + 1 - retries
decreasing_by simp_wf; simp only [MAX_RETRIES] at *; omega

/-! ## The classifier as worded by the specification (for refinement) -/

/-- The matching predicate as worded by the spec: the format of `x`
appears in `b` with byte-identical content. -/
def spec_matches (b : Snapshot) (x : ClipboardItem) : Bool :=
  b.any fun y => y.format = x.format ∧ y.content = x.content

/-- The classifier as worded by the spec (§4.1): `shared_match_count` is
the number of items of `a` whose format appears in `b` with byte-identical
content, `upper` the larger size; stated for comparison with
`compare_data`. -/
def classify_spec (a b : Snapshot) (threshold : Nat) : ComparisonResult :=
  if a.length = 0 ∧ b.length = 0 then ComparisonResult.Same
  else if a.length = 0 ∨ b.length = 0 then ComparisonResult.Different
  else
    let shared_match_count := (a.filter (spec_matches b)).length
    let upper := max a.length b.length
    if shared_match_count = upper then ComparisonResult.Same
    else if shared_match_count * 255 ≥ upper * threshold then
      ComparisonResult.Similar
    else ComparisonResult.Different

/-! ## Concrete snapshots used by counterexamples and witnesses -/

/-- An 11-format snapshot; 11 is the smallest size on which a single
mismatched format still clears the 230/255 similarity ratio. -/
def snapA : Snapshot := (List.range 11).map fun i => ⟨i, [0]⟩

/-- `snapA` with the content of format 10 changed: classified `Similar`
(not `Same`) against `snapA` at threshold 230. -/
def snapB : Snapshot := ((List.range 10).map fun i => ⟨i, [0]⟩) ++ [⟨10, [1]⟩]

/-- A second 11-format snapshot family, used by the C5 counterexample. -/
def snapC : Snapshot := (List.range 11).map fun i => ⟨i, [2]⟩

/-- `snapC` with the content of format 10 changed. -/
def snapD : Snapshot := ((List.range 10).map fun i => ⟨i, [2]⟩) ++ [⟨10, [3]⟩]

/-- A one-item snapshot. -/
def snapE : Snapshot := [⟨0, [0]⟩]

/-- A one-item snapshot, `Different` from `snapE`. -/
def snapF : Snapshot := [⟨1, [1]⟩]

/-! ## Helper lemmas -/

theorem isEmpty_false_of_ne_nil {cb_data : Snapshot} (hne : cb_data ≠ []) :
    cb_data.isEmpty = false := by
  cases cb_data with
  | nil => exact absurd rfl hne
  | cons a l => rfl

/-- Full characterization of the clipboard-changed handler on a non-empty
capture with no suppression pending: the Rust decision `match` arm by arm,
including the panicking sub-case of the Similar arm. -/
theorem clipboardStep_cases (mh : Nat) (s : EngineState) (cb_data : Snapshot)
    (hne : cb_data ≠ []) (hskip : s.skip_clipboard = false) :
    (prev_item_similarity s cb_data = ComparisonResult.Same ∨
        current_item_similarity s cb_data = ComparisonResult.Same →
      clipboardStep mh (some cb_data) s = some s) ∧
    (¬ (prev_item_similarity s cb_data = ComparisonResult.Same ∨
          current_item_similarity s cb_data = ComparisonResult.Same) →
      (prev_item_similarity s cb_data = ComparisonResult.Similar ∨
          current_item_similarity s cb_data = ComparisonResult.Similar) →
      (s.cb_history = [] → clipboardStep mh (some cb_data) s = none) ∧
      (s.cb_history ≠ [] →
        clipboardStep mh (some cb_data) s =
          some { cb_history := cb_data :: s.cb_history.tail
                 last_internal_update := none
                 skip_clipboard := false })) ∧
    (prev_item_similarity s cb_data = ComparisonResult.Different →
      current_item_similarity s cb_data = ComparisonResult.Different →
      clipboardStep mh (some cb_data) s =
        some { cb_history := (cb_data :: s.cb_history).take mh
               last_internal_update := none
               skip_clipboard := false }) := by
  have hni : cb_data.isEmpty = false := isEmpty_false_of_ne_nil hne
  cases hp : prev_item_similarity s cb_data <;>
    cases hc : current_item_similarity s cb_data <;>
    refine ⟨?_, ?_, ?_⟩ <;>
    intros <;>
    simp_all [clipboardStep, hni, hskip] <;>
    (try cases hh : s.cb_history) <;>
    simp_all

/-! ## C1 -/

/-- C1: the claim says the in-place overwrite of the front entry in the
Similar arm never fails. It does fail: after copying `snapA` and one
successful hotkey cycle the history is empty while `last_internal_update`
holds `snapA`; the next notification capturing `snapB` (Similar to `snapA`,
Different to the absent front) reaches the Similar arm and the
`front_mut().unwrap()` panics — the run ends in the failing state `none`. -/
theorem C1_similar_arm_unwrap_reachable :
    runEvents 10 initState
        [Event.clip (some snapA), Event.hotkey true, Event.clip (some snapB)]
      = none ∧
    runEvents 10 initState [Event.clip (some snapA), Event.hotkey true]
      = some { cb_history := []
               last_internal_update := some snapA
               skip_clipboard := false } ∧
    prev_item_similarity
        { cb_history := []
          last_internal_update := some snapA
          skip_clipboard := false } snapB = ComparisonResult.Similar ∧
    current_item_similarity
        { cb_history := []
          last_internal_update := some snapA
          skip_clipboard := false } snapB = ComparisonResult.Different :=
  ⟨rfl, rfl, rfl, rfl⟩

/-! ## C2 -/

/-- C2 counterexample: a reachable state with the suppression flag set in
which the next clipboard-changed invocation (an empty capture) leaves the
flag set and so does not discard-and-clear as the claim demands; the same
holds when the clipboard cannot be acquired. -/
theorem C2_flag_survives_empty_capture :
    runEvents 10 initState
        [Event.clip (some snapE), Event.clip (some snapF), Event.hotkey true]
      = some { cb_history := [snapE]
               last_internal_update := some snapF
               skip_clipboard := true } ∧
    clipboardStep 10 (some [])
        { cb_history := [snapE]
          last_internal_update := some snapF
          skip_clipboard := true }
      = some { cb_history := [snapE]
               last_internal_update := some snapF
               skip_clipboard := true } ∧
    clipboardStep 10 none
        { cb_history := [snapE]
          last_internal_update := some snapF
          skip_clipboard := true }
      = some { cb_history := [snapE]
               last_internal_update := some snapF
               skip_clipboard := true } :=
  ⟨rfl, rfl, rfl⟩

/-- C2 (amended): with the suppression flag set, a clipboard-changed
invocation whose capture is acquired and non-empty clears the flag and
discards the notification (no classification, no history mutation); an
invocation with a failed acquisition or an empty capture leaves the whole
state — the flag included — unchanged. -/
theorem C2_suppression_clearing (mh : Nat) (s : EngineState)
    (hskip : s.skip_clipboard = true) :
    (∀ cb_data : Snapshot, cb_data ≠ [] →
      clipboardStep mh (some cb_data) s = some { s with skip_clipboard := false }) ∧
    clipboardStep mh none s = some s ∧
    clipboardStep mh (some []) s = some s := by
  refine ⟨?_, rfl, rfl⟩
  intro cb_data hne
  have hni : cb_data.isEmpty = false := isEmpty_false_of_ne_nil hne
  simp [clipboardStep, hni, hskip]

/-- Witness for C2: the amended behaviour at a concrete suppressed state. -/
theorem C2_suppression_clearing_witness :
    ({ cb_history := [snapE]
       last_internal_update := some snapF
       skip_clipboard := true } : EngineState).skip_clipboard = true ∧
    clipboardStep 10 (some snapF)
        { cb_history := [snapE]
          last_internal_update := some snapF
          skip_clipboard := true }
      = some { cb_history := [snapE]
               last_internal_update := some snapF
               skip_clipboard := false } :=
  ⟨rfl, (C2_suppression_clearing 10 _ rfl).1 snapF (by decide)⟩

/-! ## C3 -/

/-- C3 counterexample: `last_internal_update` survives a notification
classified Same. After copying `snapA` and one hotkey cycle, the pending
self-write is `some snapA`; the next clipboard-changed invocation captures
`snapA` again (classified Same against the pending item) and leaves
`last_internal_update = some snapA`, not `none` as the claim demands. -/
theorem C3_pending_survives_same_notification :
    runEvents 10 initState
        [Event.clip (some snapA), Event.hotkey true, Event.clip (some snapA)]
      = some { cb_history := []
               last_internal_update := some snapA
               skip_clipboard := false } ∧
    (some snapA ≠ (none : Option Snapshot)) :=
  ⟨rfl, by simp⟩

/-- C3 (amended): in a clipboard-changed invocation with a non-empty
capture and no suppression pending, `pending_self_write` is cleared
exactly when neither verdict is Same (the Similar and Different arms);
when either verdict is Same the whole state — the pending self-write
included — is unchanged, so the pending item survives Same-classified
notifications (and, per C2, suppressed and empty-capture ones). -/
theorem C3_pending_cleared_only_on_mutation (mh : Nat) (s : EngineState)
    (cb_data : Snapshot) (hne : cb_data ≠ [])
    (hskip : s.skip_clipboard = false) :
    (¬ (prev_item_similarity s cb_data = ComparisonResult.Same ∨
          current_item_similarity s cb_data = ComparisonResult.Same) →
      ∀ s', clipboardStep mh (some cb_data) s = some s' →
        s'.last_internal_update = none) ∧
    (prev_item_similarity s cb_data = ComparisonResult.Same ∨
        current_item_similarity s cb_data = ComparisonResult.Same →
      clipboardStep mh (some cb_data) s = some s) := by
  obtain ⟨hsame, hsimilar, hdiff⟩ := clipboardStep_cases mh s cb_data hne hskip
  refine ⟨?_, hsame⟩
  intro hns s' hstep
  by_cases hsim : prev_item_similarity s cb_data = ComparisonResult.Similar ∨
      current_item_similarity s cb_data = ComparisonResult.Similar
  · obtain ⟨hnil, hcons⟩ := hsimilar hns hsim
    cases hh : s.cb_history with
    | nil => rw [hnil hh] at hstep; cases hstep
    | cons a rest =>
      rw [hcons (by simp [hh])] at hstep
      cases hstep
      rfl
  · have hp : prev_item_similarity s cb_data = ComparisonResult.Different := by
      cases hpv : prev_item_similarity s cb_data <;> simp_all
    have hc : current_item_similarity s cb_data = ComparisonResult.Different := by
      cases hcv : current_item_similarity s cb_data <;> simp_all
    rw [hdiff hp hc] at hstep
    cases hstep
    rfl

/-- Witness for C3 (amended): a Different-classified capture clears the
pending self-write. -/
theorem C3_pending_cleared_only_on_mutation_witness :
    (snapF ≠ []) ∧
    (({ cb_history := []
        last_internal_update := some snapA
        skip_clipboard := false } : EngineState).skip_clipboard = false) ∧
    (∀ s', clipboardStep 10 (some snapF)
        { cb_history := []
          last_internal_update := some snapA
          skip_clipboard := false } = some s' →
      s'.last_internal_update = none) :=
  ⟨by decide, rfl,
    (C3_pending_cleared_only_on_mutation 10 _ snapF (by decide) rfl).1
      (by decide)⟩

/-! ## C5 -/

/-- C5 counterexample: a clipboard-changed invocation with a non-empty
capture, no suppression pending and verdict pair (Similar, Different) in
which no front entry is replaced: the history is empty (the Similar
verdict came from the pending self-write) and the handler panics instead
of acting as the decision table claims. -/
theorem C5_similar_with_empty_history_fails :
    runEvents 5 initState
        [Event.clip (some snapC), Event.hotkey true, Event.clip (some snapD)]
      = none ∧
    runEvents 5 initState [Event.clip (some snapC), Event.hotkey true]
      = some { cb_history := []
               last_internal_update := some snapC
               skip_clipboard := false } ∧
    prev_item_similarity
        { cb_history := []
          last_internal_update := some snapC
          skip_clipboard := false } snapD = ComparisonResult.Similar :=
  ⟨rfl, rfl, rfl⟩

/-- C5 (amended): for a clipboard-changed invocation with a non-empty
capture and no suppression pending, with the verdict pair against
`pending_self_write` and the history front (a missing reference counting
as Different): if either verdict is Same, no state is mutated; else if
either is Similar **and the history is non-empty**, the front entry is
replaced by the new snapshot and the pending self-write is cleared (with
an empty history the handler panics instead — see C1); else (both
Different) the new snapshot is pushed to the front, the history truncated
to `max_history`, and the pending self-write cleared. -/
theorem C5_decision_table (mh : Nat) (s : EngineState) (cb_data : Snapshot)
    (hne : cb_data ≠ []) (hskip : s.skip_clipboard = false) :
    (prev_item_similarity s cb_data = ComparisonResult.Same ∨
        current_item_similarity s cb_data = ComparisonResult.Same →
      clipboardStep mh (some cb_data) s = some s) ∧
    (¬ (prev_item_similarity s cb_data = ComparisonResult.Same ∨
          current_item_similarity s cb_data = ComparisonResult.Same) →
      (prev_item_similarity s cb_data = ComparisonResult.Similar ∨
          current_item_similarity s cb_data = ComparisonResult.Similar) →
      s.cb_history ≠ [] →
      clipboardStep mh (some cb_data) s =
        some { cb_history := cb_data :: s.cb_history.tail
               last_internal_update := none
               skip_clipboard := false }) ∧
    (prev_item_similarity s cb_data = ComparisonResult.Different →
      current_item_similarity s cb_data = ComparisonResult.Different →
      clipboardStep mh (some cb_data) s =
        some { cb_history := (cb_data :: s.cb_history).take mh
               last_internal_update := none
               skip_clipboard := false }) := by
  obtain ⟨hsame, hsimilar, hdiff⟩ := clipboardStep_cases mh s cb_data hne hskip
  exact ⟨hsame, fun hns hsim => (hsimilar hns hsim).2, hdiff⟩

/-- Witness for C5 (amended): at a concrete state whose front is Similar
to the capture, the front entry is replaced and the pending self-write
cleared. -/
theorem C5_decision_table_witness :
    (snapB ≠ []) ∧
    (({ cb_history := [snapA]
        last_internal_update := none
        skip_clipboard := false } : EngineState).skip_clipboard = false) ∧
    ¬ (prev_item_similarity
          { cb_history := [snapA]
            last_internal_update := none
            skip_clipboard := false } snapB = ComparisonResult.Same ∨
        current_item_similarity
          { cb_history := [snapA]
            last_internal_update := none
            skip_clipboard := false } snapB = ComparisonResult.Same) ∧
    (({ cb_history := [snapA]
        last_internal_update := none
        skip_clipboard := false } : EngineState).cb_history ≠ []) ∧
    clipboardStep 7 (some snapB)
        { cb_history := [snapA]
          last_internal_update := none
          skip_clipboard := false }
      = some { cb_history := [snapB]
               last_internal_update := none
               skip_clipboard := false } :=
  ⟨by decide, rfl, by decide, by decide,
    (C5_decision_table 7 _ snapB (by decide) rfl).2.1 (by decide) (by decide)
      (by decide)⟩

/-! ## C7 -/

/-- C7: a hotkey press with an empty history and successful key synthesis
is a no-op cycle: `pop_front` yields nothing, `pending_self_write` becomes
`None`, no clipboard write is attempted, the suppression flag is not
armed (it keeps its previous value), the handler does not fail, and the
history stays empty. -/
theorem C7_empty_history_hotkey_noop (s : EngineState)
    (h : s.cb_history = []) :
    hotkeyStep true s =
      ({ cb_history := []
         last_internal_update := none
         skip_clipboard := s.skip_clipboard }, none) := by
  simp [hotkeyStep, h]

/-- Witness for C7: the no-op cycle at a concrete empty-history state. -/
theorem C7_empty_history_hotkey_noop_witness :
    (({ cb_history := []
        last_internal_update := some snapA
        skip_clipboard := false } : EngineState).cb_history = []) ∧
    hotkeyStep true
        { cb_history := []
          last_internal_update := some snapA
          skip_clipboard := false }
      = ({ cb_history := []
           last_internal_update := none
           skip_clipboard := false }, none) :=
  ⟨rfl, C7_empty_history_hotkey_noop _ rfl⟩

/-! ## Invariant machinery for C6 and C10 -/

/-- Every successful clipboard-changed invocation leaves the history
unchanged, replaces the front of a non-empty history by the (non-empty)
capture, or pushes the (non-empty) capture and truncates to
`max_history`. -/
theorem clipboardStep_history_shape (mh : Nat) (cap : Option Snapshot)
    (s s' : EngineState) (h : clipboardStep mh cap s = some s') :
    s'.cb_history = s.cb_history ∨
    (∃ d, d ≠ [] ∧ s.cb_history ≠ [] ∧
      s'.cb_history = d :: s.cb_history.tail) ∨
    (∃ d, d ≠ [] ∧ s'.cb_history = (d :: s.cb_history).take mh) := by
  cases cap with
  | none =>
    cases h
    exact Or.inl rfl
  | some cb_data =>
    by_cases hni : cb_data.isEmpty
    · simp only [clipboardStep, hni, if_true, Option.some.injEq] at h
      subst h
      exact Or.inl rfl
    · have hne : cb_data ≠ [] := by
        cases cb_data with
        | nil => simp at hni
        | cons a l => simp
      by_cases hskip : s.skip_clipboard
      · simp only [clipboardStep, hni, hskip, if_true, if_false,
          Bool.false_eq_true, Option.some.injEq] at h
        subst h
        exact Or.inl rfl
      · cases hp : prev_item_similarity s cb_data <;>
          cases hc : current_item_similarity s cb_data <;>
          simp only [clipboardStep, hni, hskip, hp, hc, if_false,
            Bool.false_eq_true, Option.some.injEq] at h
        all_goals
          first
          | (subst h; exact Or.inl rfl)
          | (cases hh : s.cb_history with
              | nil => rw [hh] at h; cases h
              | cons a rest =>
                rw [hh] at h
                cases h
                exact Or.inr (Or.inl ⟨cb_data, hne, by simp [hh], by simp [hh]⟩))
          | (subst h; exact Or.inr (Or.inr ⟨cb_data, hne, rfl⟩))

/-- A hotkey invocation either pops the front (key synthesis succeeded)
or leaves the history unchanged. -/
theorem hotkeyStep_history_shape (ok : Bool) (s : EngineState) :
    ((hotkeyStep ok s).1.cb_history = s.cb_history.tail) ∨
    ((hotkeyStep ok s).1.cb_history = s.cb_history) := by
  cases ok with
  | false => exact Or.inr rfl
  | true =>
    cases hh : s.cb_history.tail.head? <;> simp [hotkeyStep, hh]

/-- Invariant induction over the event loop. -/
theorem runEvents_inv (mh : Nat) (P : EngineState → Prop)
    (hstep : ∀ s e s', P s → step mh s e = some s' → P s') :
    ∀ (evs : List Event) (s s' : EngineState), P s →
      runEvents mh s evs = some s' → P s' := by
  intro evs
  induction evs with
  | nil =>
    intro s s' hP h
    simp only [runEvents, Option.some.injEq] at h
    subst h
    exact hP
  | cons e es ih =>
    intro s s' hP h
    simp only [runEvents] at h
    cases hst : step mh s e with
    | none => rw [hst] at h; cases h
    | some s1 =>
      rw [hst] at h
      exact ih s1 s' (hstep s e s1 hP hst) h

/-! ## C6 -/

/-- C6: along any sequence of handler invocations from the initial state,
the history length never exceeds `max_history`: insertion truncates
immediately, replacement keeps the length, popping shrinks it. -/
theorem C6_history_bounded (mh : Nat) (evs : List Event) (s : EngineState)
    (h : runEvents mh initState evs = some s) :
    s.cb_history.length ≤ mh := by
  refine runEvents_inv mh (fun st => st.cb_history.length ≤ mh) ?_ evs
    initState s (by simp [initState]) h
  intro t e t' hP hstep
  cases e with
  | hotkey ok =>
    simp only [step, Option.some.injEq] at hstep
    subst hstep
    rcases hotkeyStep_history_shape ok t with h1 | h2
    · rw [h1]
      have := List.length_tail t.cb_history
      omega
    · rw [h2]; exact hP
  | clip cap =>
    rcases clipboardStep_history_shape mh cap t t' hstep with
      h1 | ⟨d, _, hne, h2⟩ | ⟨d, _, h3⟩
    · rw [h1]; exact hP
    · rw [h2]
      have h4 := List.length_tail t.cb_history
      have h5 : 0 < t.cb_history.length := List.length_pos.mpr hne
      simp only [List.length_cons]
      omega
    · rw [h3]
      simp only [List.length_take]
      omega

/-- Witness for C6: the bound at a concrete run with `max_history = 1`
and two distinct copies. -/
theorem C6_history_bounded_witness :
    runEvents 1 initState [Event.clip (some snapE), Event.clip (some snapF)]
      = some { cb_history := [snapF]
               last_internal_update := none
               skip_clipboard := false } ∧
    ({ cb_history := [snapF]
       last_internal_update := none
       skip_clipboard := false } : EngineState).cb_history.length ≤ 1 :=
  ⟨rfl, C6_history_bounded 1
    [Event.clip (some snapE), Event.clip (some snapF)] _ rfl⟩

/-! ## C10 -/

/-- C10: every entry of the history of a reachable state is a non-empty
snapshot — empty captures are discarded before insertion or replacement,
and the hotkey handler only removes entries. -/
theorem C10_history_entries_nonempty (mh : Nat) (evs : List Event)
    (s : EngineState) (h : runEvents mh initState evs = some s) :
    ∀ d ∈ s.cb_history, d ≠ [] := by
  refine runEvents_inv mh (fun st => ∀ d ∈ st.cb_history, d ≠ []) ?_ evs
    initState s (by simp [initState]) h
  intro t e t' hP hstep
  cases e with
  | hotkey ok =>
    simp only [step, Option.some.injEq] at hstep
    subst hstep
    rcases hotkeyStep_history_shape ok t with h1 | h2
    · rw [h1]
      exact fun d hd => hP d (List.mem_of_mem_tail hd)
    · rw [h2]; exact hP
  | clip cap =>
    rcases clipboardStep_history_shape mh cap t t' hstep with
      h1 | ⟨d, hd, _, h2⟩ | ⟨d, hd, h3⟩
    · rw [h1]; exact hP
    · rw [h2]
      intro x hx
      rcases List.mem_cons.mp hx with rfl | hx'
      · exact hd
      · exact hP x (List.mem_of_mem_tail hx')
    · rw [h3]
      intro x hx
      rcases List.mem_cons.mp (List.take_subset _ _ hx) with rfl | hx'
      · exact hd
      · exact hP x hx'

/-- Witness for C10: the invariant at a concrete reachable state. -/
theorem C10_history_entries_nonempty_witness :
    runEvents 10 initState [Event.clip (some snapE), Event.clip (some snapF)]
      = some { cb_history := [snapF, snapE]
               last_internal_update := none
               skip_clipboard := false } ∧
    ∀ d ∈ ({ cb_history := [snapF, snapE]
             last_internal_update := none
             skip_clipboard := false } : EngineState).cb_history, d ≠ [] :=
  ⟨rfl, C10_history_entries_nonempty 10
    [Event.clip (some snapE), Event.clip (some snapF)] _ rfl⟩

/-! ## Classifier lemmas for C4 and C8 -/

/-- On a reference snapshot with pairwise-distinct formats, the Rust
find-first-format-then-compare closure accepts exactly the items that are
members of the reference snapshot. -/
theorem item_matches_eq_mem (b : Snapshot) (x : ClipboardItem)
    (hb : (b.map ClipboardItem.format).Nodup) :
    item_matches b x = decide (x ∈ b) := by
  cases hfind : b.find? fun y => decide (x.format = y.format) with
  | none =>
    have hniff : x ∉ b := by
      intro hmem
      have := List.find?_eq_none.mp hfind x hmem
      simp at this
    simp [item_matches, hfind, hniff]
  | some y =>
    have hyb : y ∈ b := List.mem_of_find?_eq_some hfind
    have hyf : x.format = y.format := by
      have := List.find?_some hfind
      simpa using this
    by_cases hxy : x = y
    · subst hxy
      simp [item_matches, hfind, hyb]
    · have hnx : x ∉ b := by
        intro hmem
        exact hxy (List.inj_on_of_nodup_map hb hmem hyb hyf)
      simp [item_matches, hfind, hxy, hnx]

/-- The spec-worded matching predicate accepts exactly the members of the
reference snapshot (an item is format plus content, so format-and-content
equality is item equality). -/
theorem spec_matches_eq_mem (b : Snapshot) (x : ClipboardItem) :
    spec_matches b x = decide (x ∈ b) := by
  have h : spec_matches b x = true ↔ (decide (x ∈ b)) = true := by
    simp only [spec_matches, List.any_eq_true, decide_eq_true_eq]
    constructor
    · rintro ⟨y, hy, hfmt, hcnt⟩
      have hxy : y = x := by cases x; cases y; simp_all
      exact hxy ▸ hy
    · intro hx
      exact ⟨x, hx, rfl, rfl⟩
  cases hsb : spec_matches b x <;> cases hdb : decide (x ∈ b) <;> simp_all

/-! ## C4 -/

/-- C4: on well-formed snapshots (one item per format, as the data model
defines a snapshot) and any threshold in 0..=255, `compare_data` computes
exactly the classification worded by the spec: Same when both empty,
Different when exactly one is empty, otherwise Same / Similar / Different
by `shared_match_count` against `upper = max(|a|, |b|)` with the
`* 255 ≥ upper * threshold` integer comparison. -/
theorem C4_classifier_matches_spec (a b : Snapshot) (t : Nat) (_ht : t ≤ 255)
    (_ha : (a.map ClipboardItem.format).Nodup)
    (hb : (b.map ClipboardItem.format).Nodup) :
    compare_data a b t = classify_spec a b t := by
  have hcount : a.filter (item_matches b) = a.filter (spec_matches b) :=
    List.filter_congr fun x _ => by
      rw [item_matches_eq_mem b x hb, spec_matches_eq_mem]
  simp only [compare_data, classify_spec, hcount]

/-- Witness for C4: the agreement at a concrete snapshot pair and
threshold. -/
theorem C4_classifier_matches_spec_witness :
    (128 ≤ 255) ∧
    ((snapB.map ClipboardItem.format).Nodup) ∧
    ((snapA.map ClipboardItem.format).Nodup) ∧
    compare_data snapB snapA 128 = classify_spec snapB snapA 128 :=
  ⟨by decide, by decide, by decide,
    C4_classifier_matches_spec snapB snapA 128 (by decide) (by decide)
      (by decide)⟩

/-! ## C8 -/

/-- For lists without duplicates, the two mutual membership filters keep
the same number of items: both count the common elements. -/
theorem length_filter_mem_comm (a b : List ClipboardItem)
    (ha : a.Nodup) (hb : b.Nodup) :
    (a.filter fun x => decide (x ∈ b)).length
      = (b.filter fun x => decide (x ∈ a)).length := by
  have h1 : (a.filter fun x => decide (x ∈ b)).toFinset
      = a.toFinset ∩ b.toFinset := by
    ext x
    simp [List.mem_filter]
  have h2 : (b.filter fun x => decide (x ∈ a)).toFinset
      = b.toFinset ∩ a.toFinset := by
    ext x
    simp [List.mem_filter]
  rw [← List.toFinset_card_of_nodup (ha.filter _),
    ← List.toFinset_card_of_nodup (hb.filter _), h1, h2, Finset.inter_comm]

/-- On well-formed snapshots (pairwise-distinct formats) the classifier is
symmetric: the matched-item count equals the number of common items in
either direction, and `upper` is symmetric. -/
theorem compare_data_comm (a b : Snapshot) (t : Nat)
    (ha : (a.map ClipboardItem.format).Nodup)
    (hb : (b.map ClipboardItem.format).Nodup) :
    compare_data a b t = compare_data b a t := by
  have ha' : a.Nodup := List.Nodup.of_map _ ha
  have hb' : b.Nodup := List.Nodup.of_map _ hb
  have hcount : (a.filter (item_matches b)).length
      = (b.filter (item_matches a)).length := by
    rw [List.filter_congr fun x _ => item_matches_eq_mem b x hb,
      List.filter_congr fun x _ => item_matches_eq_mem a x ha]
    exact length_filter_mem_comm a b ha' hb'
  by_cases h0a : a.length = 0 <;> by_cases h0b : b.length = 0 <;>
    simp [compare_data, h0a, h0b, hcount, Nat.max_comm]

/-- C8 counterexample: the claim's asymmetry witness does not exist among
well-formed snapshots (one item per format, as the data model defines a
snapshot): there restricted, `compare_data` is symmetric for every
threshold. -/
theorem C8_no_asymmetry_on_snapshots :
    ¬ ∃ (a b : Snapshot) (t : Nat),
        (a.map ClipboardItem.format).Nodup ∧
        (b.map ClipboardItem.format).Nodup ∧
        t ≤ 255 ∧ compare_data a b t ≠ compare_data b a t := by
  rintro ⟨a, b, t, ha, hb, -, hne⟩
  exact hne (compare_data_comm a b t ha hb)

/-- C8 (amended): the classifier, as a function on raw item lists, is not
symmetric — but an asymmetry witness necessarily repeats a format: with a
duplicated item the matched count is driven by the first list, e.g.
`[x, x]` vs `[x]` classifies Same one way and Different the other. -/
theorem C8_asymmetric_on_duplicate_formats :
    compare_data [⟨0, [0]⟩, ⟨0, [0]⟩] [⟨0, [0]⟩] 230 = ComparisonResult.Same ∧
    compare_data [⟨0, [0]⟩] [⟨0, [0]⟩, ⟨0, [0]⟩] 230
      = ComparisonResult.Different ∧
    compare_data [⟨0, [0]⟩, ⟨0, [0]⟩] [⟨0, [0]⟩] 230
      ≠ compare_data [⟨0, [0]⟩] [⟨0, [0]⟩, ⟨0, [0]⟩] 230 :=
  ⟨rfl, rfl, by decide⟩

/-! ## C9 -/

/-- Behaviour of the recovery loop from any retry count: the trace holds
only force-release injections and 25 ms sleeps, the loop always ends —
released or fatal with the `MAX_RETRIES` attempt count — within the
remaining budget, and exhausts to the fatal outcome when injection keeps
failing. -/
theorem recoveryLoop_general (res : Nat → Bool) :
    ∀ (n idx retries : Nat), MAX_RETRIES + 1 - retries ≤ n →
      (∀ e ∈ (recoveryLoop res idx retries).2,
          e = RecoveryEvent.inject releaseCall ∨ e = RecoveryEvent.sleep 25) ∧
      ((recoveryLoop res idx retries).1 = RecoveryOutcome.released ∨
        (recoveryLoop res idx retries).1
          = RecoveryOutcome.fatal MAX_RETRIES) ∧
      (recoveryLoop res idx retries).2.length
        ≤ 2 * (MAX_RETRIES - retries) + 1 ∧
      ((∀ i, res i = false) →
        (recoveryLoop res idx retries).1
          = RecoveryOutcome.fatal MAX_RETRIES) := by
  intro n
  induction n with
  | zero =>
    intro idx retries h
    have hge : retries ≥ MAX_RETRIES := by
      simp only [MAX_RETRIES] at *
      omega
    by_cases hres : res idx
    · have hunf : recoveryLoop res idx retries
          = (RecoveryOutcome.released, [RecoveryEvent.inject releaseCall]) := by
        rw [recoveryLoop]
        simp [hres]
      rw [hunf]
      refine ⟨?_, Or.inl rfl, by simp, ?_⟩
      · intro e he
        simp at he
        exact Or.inl he
      · intro hall
        exact absurd (hall idx) (by simp [hres])
    · have hunf : recoveryLoop res idx retries
          = (RecoveryOutcome.fatal MAX_RETRIES,
             [RecoveryEvent.inject releaseCall]) := by
        rw [recoveryLoop]
        simp [hres, hge]
      rw [hunf]
      refine ⟨?_, Or.inr rfl, by simp, fun _ => rfl⟩
      intro e he
      simp at he
      exact Or.inl he
  | succ n ih =>
    intro idx retries h
    by_cases hres : res idx
    · have hunf : recoveryLoop res idx retries
          = (RecoveryOutcome.released, [RecoveryEvent.inject releaseCall]) := by
        rw [recoveryLoop]
        simp [hres]
      rw [hunf]
      refine ⟨?_, Or.inl rfl, by simp, ?_⟩
      · intro e he
        simp at he
        exact Or.inl he
      · intro hall
        exact absurd (hall idx) (by simp [hres])
    · by_cases hge : retries ≥ MAX_RETRIES
      · have hunf : recoveryLoop res idx retries
            = (RecoveryOutcome.fatal MAX_RETRIES,
               [RecoveryEvent.inject releaseCall]) := by
          rw [recoveryLoop]
          simp [hres, hge]
        rw [hunf]
        refine ⟨?_, Or.inr rfl, by simp, fun _ => rfl⟩
        intro e he
        simp at he
        exact Or.inl he
      · have hunf : recoveryLoop res idx retries
            = ((recoveryLoop res (idx + 1) (retries + 1)).1,
               RecoveryEvent.inject releaseCall :: RecoveryEvent.sleep 25 ::
                 (recoveryLoop res (idx + 1) (retries + 1)).2) := by
          rw [recoveryLoop]
          simp [hres, hge]
        obtain ⟨ihtr, ihout, ihlen, ihfatal⟩ :=
          ih (idx + 1) (retries + 1) (by omega)
        rw [hunf]
        refine ⟨?_, ihout, ?_, ihfatal⟩
        · intro e he
          rcases List.mem_cons.mp he with rfl | he'
          · exact Or.inl rfl
          · rcases List.mem_cons.mp he' with rfl | he''
            · exact Or.inr rfl
            · exact ihtr e he''
        · simp only [List.length_cons]
          simp only [MAX_RETRIES] at ihlen hge ⊢
          omega

/-- C9: starting the recovery loop after a failed six-event synthesis, the
retries consist only of the three force-release key-up events
(Shift, Ctrl, paste key) separated by fixed 25 ms sleeps; the loop always
ends, either released or — in particular whenever injection keeps
failing — by the fatal exit reporting the `MAX_RETRIES = 10` attempt
budget, after at most `MAX_RETRIES + 1` injection attempts (trace length
at most `2 * MAX_RETRIES + 1`). -/
theorem C9_recovery_bounded (res : Nat → Bool) :
    (∀ e ∈ (recoveryLoop res 0 0).2,
        e = RecoveryEvent.inject releaseCall ∨ e = RecoveryEvent.sleep 25) ∧
    ((recoveryLoop res 0 0).1 = RecoveryOutcome.released ∨
      (recoveryLoop res 0 0).1 = RecoveryOutcome.fatal MAX_RETRIES) ∧
    (recoveryLoop res 0 0).2.length ≤ 2 * MAX_RETRIES + 1 ∧
    ((∀ i, res i = false) →
      (recoveryLoop res 0 0).1 = RecoveryOutcome.fatal MAX_RETRIES) := by
  have h := recoveryLoop_general res (MAX_RETRIES + 1) 0 0 (by omega)
  simpa using h

/-- Witness for C9: with every injection failing, the loop ends with the
fatal outcome reporting the 10-attempt budget. -/
theorem C9_recovery_bounded_witness :
    (recoveryLoop (fun _ => false) 0 0).1
      = RecoveryOutcome.fatal MAX_RETRIES :=
  (C9_recovery_bounded (fun _ => false)).2.2.2 fun _ => rfl
